import Mathlib

/-!
Shallow embedding of `gcalcron.py` (kangaechu/gcalcron3): the event-to-job
reconciliation engine that turns Google Calendar events into scheduled
one-shot `at` jobs.

Modelling conventions:
* Timestamps are integers counting minutes.  A `GDateTime` bundles the raw
  RFC-3339 string carried in the event JSON (`event['start']['dateTime']`)
  with its parsed value: `instant` is the UTC instant and `offset` the
  timezone offset, so `dateutil.parser.parse(raw).replace(tzinfo=None)`
  (wall-clock time with the timezone information stripped) is
  `instant + offset`.
* `datetime.datetime.now()` is passed explicitly as a `now : Int` parameter
  (evaluated once per operation, matching the single-threaded run).
* The settings dict `self.settings['jobs']` is an association list with
  Python-dict semantics: lookup finds the first (unique) key, in-place update
  keeps the position, fresh insertion appends at the end.
* Each `subprocess.Popen` of the `at` command is modelled as an emitted
  `OsOp`; the textual confirmation the scheduler prints on stderr for each
  schedule invocation is supplied as an oracle list `resps : List String`
  consumed one element per invocation (an exhausted oracle yields `""`,
  which matches no job id).
-/

namespace Gcalcron

/-- One parsed calendar timestamp: the raw string plus its parsed instant
(UTC minutes) and timezone offset (minutes).  `naive` is the result of
`.replace(tzinfo=None)`: the wall-clock reading. -/
structure GDateTime where
  raw : String
  instant : Int
  offset : Int
deriving Repr, DecidableEq

def GDateTime.naive (d : GDateTime) : Int :=
  d.instant + d.offset

/-- A calendar event as consumed by `parse_events` (fields of the Google
Calendar API item; `summary`, `location`, `description` may be absent). -/
structure Event where
  id : String
  status : String
  updated : String
  start : GDateTime
  endTime : GDateTime
  summary : Option String
  location : Option String
  description : Option String
deriving Repr, DecidableEq

/-- The command dict built by `parse_command`: keys 'command' and 'exec_time'. -/
structure Command where
  command : String
  exec_time : Int
deriving Repr, DecidableEq

/-- One element of the `command_list` built by `parse_events`: always carries
the event `uid`; carries the `command` key only for confirmed, parseable
events. -/
structure Action where
  uid : String
  command : Option Command
deriving Repr, DecidableEq

/-- One value of the jobs dict: a record with keys 'date' (stored here as the
minute count of that date's midnight) and 'ids'. -/
structure JobRecord where
  date : Int
  ids : List String
deriving Repr, DecidableEq

/-- The jobs dict: event uid -> JobRecord, with Python dict semantics. -/
abbrev Jobs := List (String × JobRecord)

/-- The persisted settings record (`gcalcron_conf.json`). -/
structure Settings where
  jobs : Jobs
  calendarId : String
  last_sync : Option Int
deriving Repr, DecidableEq

/-- Python dict lookup `m[k]` (as an option): first entry with the key. -/
def dictGet (m : Jobs) (k : String) : Option JobRecord :=
  (m.find? (fun p => p.1 == k)).map Prod.snd

/-- Python `del m[k]`: drop the (unique) entry with key `k`. -/
def dictDel (m : Jobs) (k : String) : Jobs :=
  m.filter (fun p => p.1 != k)

/-- Python `m[k] = v`: replace in place when the key exists, else append. -/
def dictSet (m : Jobs) (k : String) (v : JobRecord) : Jobs :=
  if (m.find? (fun p => p.1 == k)).isSome then
    m.map (fun p => if p.1 == k then (k, v) else p)
  else
    m ++ [(k, v)]

/-- Absolute path of the wrapper script,
`os.path.abspath(os.path.join(os.path.dirname(__file__), 'gcalcron.sh'))`. -/
def gcalcron_sh : String :=
  "/opt/gcalcron/gcalcron.sh"

/-- Embedding of `parse_command(event_description, start_time, end_time,
event_summary, event_location)` from `gcalcron.py`.  It parses the event's start time,
strips the timezone, and — when that time is not in the past — returns a
single command dict whose payload is the wrapper script applied to the five
raw field values, each in double quotes.  The description's lines are never
inspected. -/
def parse_command (event_description : String) (start_time end_time : GDateTime)
    (event_summary event_location : String) (now : Int) : Option Command :=
  let exec_time := start_time.naive
  if now ≤ exec_time then
    some { command := gcalcron_sh ++ " \"" ++
             String.intercalate "\" \"" [start_time.raw, end_time.raw,
               event_summary, event_location, event_description] ++ "\"",
           exec_time := exec_time }
  else
    none

/-- Embedding of `parse_events(events)` from `gcalcron.py`: the reconciler.  A cancelled
event yields a uid-only action; a non-cancelled event with a non-empty
description yields a uid+command action when `parse_command` returns one,
and nothing otherwise; a non-cancelled event with an empty (or absent)
description yields nothing. -/
def parse_events (now : Int) : List Event → List Action
  | [] => []
  | e :: rest =>
    let event_description := (e.description).getD ""
    let event_location := (e.location).getD ""
    let event_summary := (e.summary).getD ""
    (if e.status = "cancelled" then
      [{ uid := e.id, command := none }]
    else if event_description ≠ "" then
      match parse_command event_description e.start e.endTime
          event_summary event_location now with
      | some c => [{ uid := e.id, command := some c }]
      | none => []
    else []) ++ parse_events now rest

/-- Minutes in one day (`datetime.timedelta(days=1)`). -/
def oneDay : Int := 1440

/-- Embedding of `clean_settings` from `gcalcron.py`: delete every job record whose
stored date (midnight of the job's calendar date) satisfies
`date <= now - timedelta(days=1)`. -/
def clean_settings (now : Int) (jobs : Jobs) : Jobs :=
  jobs.filter (fun p => ¬ (p.2.date ≤ now - oneDay))

/-- One invocation of the OS scheduler collaborator (`subprocess.Popen` of
`at`): either the batched cancel `at -d id1 id2 ...` or one scheduling call
`at <time>` fed the command text on stdin. -/
inductive OsOp where
  | cancel (ids : List String)
  | schedule (exec_time : Int) (command : String)
deriving Repr, DecidableEq

def OsOp.isCancel : OsOp → Bool
  | .cancel _ => true
  | .schedule _ _ => false

def OsOp.isSchedule : OsOp → Bool
  | .cancel _ => false
  | .schedule _ _ => true

/-- Embedding of `unschedule_old_jobs(events)` from `gcalcron.py`, minus the
final Popen:
walks the action list, deleting each uid's job record from the store and
accumulating its ids in order.  Returns the updated store and the
accumulated `removed_job_ids` (the caller issues one batched cancel for
them iff the list is non-empty). -/
def unschedule_old_jobs (jobs : Jobs) : List Action → Jobs × List String
  | [] => (jobs, [])
  | a :: rest =>
    match dictGet jobs a.uid with
    | some jr =>
      let r := unschedule_old_jobs (dictDel jobs a.uid) rest
      (r.1, jr.ids ++ r.2)
    | none => unschedule_old_jobs jobs rest

/-- Longest leading run of decimal digits of a character list, with the
remainder. -/
def digitRun : List Char → List Char × List Char
  | [] => ([], [])
  | c :: cs =>
    if c.isDigit then
      let r := digitRun cs
      (c :: r.1, r.2)
    else
      ([], c :: cs)

/-- Attempt to match the regular expression `job (\d+) at` at the head of the
character list, returning the captured digit group. -/
def matchJobIdHere (cs : List Char) : Option String :=
  match cs with
  | 'j' :: 'o' :: 'b' :: ' ' :: rest =>
    let r := digitRun rest
    if r.1.isEmpty then
      none
    else
      match r.2 with
      | ' ' :: 'a' :: 't' :: _ => some (String.mk r.1)
      | _ => none
  | _ => none

/-- Embedding of the search for the regular expression `job (\d+) at`: the leftmost match of the
pattern, if any.  (`\d+` is greedy; since a digit cannot also be the space
that must follow the group, the maximal digit run is the only candidate at
each position.) -/
def searchJobId : List Char → Option String
  | [] => none
  | c :: cs =>
    match matchJobIdHere (c :: cs) with
    | some s => some s
    | none => searchJobId cs

/-- Midnight (in minutes) of the calendar date containing minute `t`:
`exec_time.strftime('%Y-%m-%d')` stored by `schedule_new_jobs`. -/
def dateOfExecTime (t : Int) : Int :=
  oneDay * (Int.fdiv t oneDay)

/-- Embedding of `schedule_new_jobs(events)` from `gcalcron.py`: for each
action carrying
a command whose time is still in the future, invoke the scheduler (emitting
an `OsOp.schedule` and consuming one oracle response as the `at` stderr
text); when the response contains a `job <digits> at` confirmation, record
the job id under the event's uid (appending to an existing record, or
creating one dated by the command's execution date). -/
def schedule_new_jobs (now : Int) : List Action → List String → Jobs → Jobs × List OsOp
  | [], _, jobs => (jobs, [])
  | a :: rest, resps, jobs =>
    match a.command with
    | none => schedule_new_jobs now rest resps jobs
    | some c =>
      if c.exec_time ≤ now then
        schedule_new_jobs now rest resps jobs
      else
        let stderr := resps.headD ""
        let jobs' :=
          match searchJobId stderr.toList with
          | some job_id =>
            match dictGet jobs a.uid with
            | some jr => dictSet jobs a.uid { jr with ids := jr.ids ++ [job_id] }
            | none => dictSet jobs a.uid
                { date := dateOfExecTime c.exec_time, ids := [job_id] }
          | none => jobs
        let r := schedule_new_jobs now rest resps.tail jobs'
        (r.1, OsOp.schedule c.exec_time c.command :: r.2)

/-- A Google Calendar list query as assembled by `get_query(start_min,
start_max, updated_min)`: `updatedMin` and `showDeleted` are set only when
an `updated_min` bound is supplied. -/
structure Query where
  timeMin : Int
  timeMax : Int
  updatedMin : Option Int
  showDeleted : Bool
deriving Repr, DecidableEq

/-- Embedding of `GCalAdapter.get_query` from `gcalcron.py` (the constant fields —
calendarId, maxResults, orderBy, singleEvents, fields — are omitted as they
do not vary). -/
def get_query (start_min start_max : Int) (updated_min : Option Int) : Query :=
  { timeMin := start_min
    timeMax := start_max
    updatedMin := updated_min
    showDeleted := updated_min.isSome }

/-- Embedding of `GCalAdapter.get_events(sync_start, last_sync, num_days)` from
`gcalcron.py`, up to the point where the queries are handed to `query_api`:
the list of queries issued. -/
def get_events_queries (sync_start : Int) (last_sync : Option Int)
    (num_days : Int) : List Query :=
  match last_sync with
  | some ls =>
    [get_query sync_start (ls + num_days) (some ls),
     get_query (ls + num_days) (sync_start + num_days) none]
  | none =>
    [get_query sync_start (sync_start + num_days) none]

/-- Outcome of `GCalAdapter.get_events` / `query_api` as seen by
`sync_gcal_to_cron`: either the event list, or an
`AccessTokenRefreshError` caught inside `query_api` (which prints a message
and lets the loop fall through, returning the entries gathered so far), or
any other exception, which propagates out of the adapter uncaught. -/
inductive FetchResult where
  | ok (events : List Event)
  | revoked (eventsSoFar : List Event)
  | raised
deriving Repr, DecidableEq

/-- Result of one completed synchronisation cycle: the persisted settings
and the sequence of OS scheduler invocations, in order. -/
structure SyncResult where
  settings : Settings
  ops : List OsOp
deriving Repr, DecidableEq

/-- Embedding of `GCalCron.sync_gcal_to_cron` from `gcalcron.py`.  `none` means the cycle
aborted by exception before any mutation (the adapter raised).  Otherwise —
including the caught credential-revocation case, which merely shortens the
event list — the cycle runs to completion: reconcile, unschedule (one
batched cancel when any ids were removed), schedule, clean old records, and
persist with `last_sync` set to the cycle's start time. -/
def sync_gcal_to_cron (fetch : FetchResult) (now : Int) (resps : List String)
    (s : Settings) : Option SyncResult :=
  match fetch with
  | .raised => none
  | .ok events | .revoked events =>
    let command_list := parse_events now events
    let u := unschedule_old_jobs s.jobs command_list
    let cancelOps : List OsOp := if u.2.isEmpty then [] else [OsOp.cancel u.2]
    let r := schedule_new_jobs now command_list resps u.1
    let cleaned := clean_settings now r.1
    some { settings := { s with jobs := cleaned, last_sync := some now }
           ops := cancelOps ++ r.2 }

/-! ## Helper lemmas -/

theorem string_append_assoc (a b c : String) : (a ++ b) ++ c = a ++ (b ++ c) := by
  cases a; cases b; cases c
  exact congrArg String.mk (List.append_assoc _ _ _)

theorem intercalate_five (s a b c d e : String) :
    String.intercalate s [a, b, c, d, e] = a ++ s ++ b ++ s ++ c ++ s ++ d ++ s ++ e :=
  rfl

theorem parse_command_exec_time {desc : String} {st en : GDateTime}
    {su lo : String} {now : Int} {c : Command}
    (h : parse_command desc st en su lo now = some c) : c.exec_time = st.naive := by
  unfold parse_command at h
  by_cases hle : now ≤ st.naive
  · rw [if_pos hle] at h
    cases h
    rfl
  · rw [if_neg hle] at h
    cases h

theorem parse_events_cons (now : Int) (e : Event) (rest : List Event) :
    parse_events now (e :: rest) = parse_events now [e] ++ parse_events now rest := by
  simp [parse_events]

theorem dictGet_cons (p : String × JobRecord) (m : Jobs) (u : String) :
    dictGet (p :: m) u = if p.1 == u then some p.2 else dictGet m u := by
  by_cases h : p.1 == u <;> simp [dictGet, List.find?, h]

theorem dictGet_append_single (m : Jobs) (k u : String) (v : JobRecord) :
    dictGet (m ++ [(k, v)]) u =
      (dictGet m u).or (if k == u then some v else none) := by
  induction m with
  | nil => by_cases h : k == u <;> simp [dictGet, List.find?, h]
  | cons p rest ih =>
    rw [List.cons_append, dictGet_cons, dictGet_cons]
    by_cases h : p.1 == u <;> simp [h, ih]

theorem dictGet_map_replace (m : Jobs) (k : String) (v : JobRecord) (u : String) :
    dictGet (m.map (fun p => if p.1 == k then (k, v) else p)) u =
      if u = k then (if (m.find? (fun p => p.1 == k)).isSome then some v else none)
      else dictGet m u := by
  induction m with
  | nil => by_cases h : u = k <;> simp [dictGet, h]
  | cons p rest ih =>
    rw [List.map_cons, dictGet_cons, dictGet_cons]
    by_cases hpk : (p.1 == k) = true
    · rw [show (if (p.1 == k) = true then (k, v) else p) = (k, v) from if_pos hpk]
      have hfind : List.find? (fun q => q.1 == k) (p :: rest) = some p :=
        List.find?_cons_of_pos rest hpk
      rw [hfind]
      have hk : p.1 = k := eq_of_beq hpk
      by_cases huk : u = k
      · subst huk
        simp
      · have h1 : ((k : String) == u) = false := by
          rw [beq_eq_false_iff_ne]
          intro hc
          exact huk hc.symm
        have h2 : (p.1 == u) = false := by
          rw [beq_eq_false_iff_ne]
          intro hc
          apply huk
          rw [← hc]
          exact hk
        rw [ih]
        simp [h1, h2, huk]
    · rw [show (if (p.1 == k) = true then (k, v) else p) = p from if_neg hpk]
      have hfind : List.find? (fun q => q.1 == k) (p :: rest) =
          List.find? (fun q => q.1 == k) rest :=
        List.find?_cons_of_neg rest hpk
      rw [hfind]
      by_cases hpu : (p.1 == u) = true
      · have hu : p.1 = u := eq_of_beq hpu
        have huk : ¬ (u = k) := by
          intro hc
          exact hpk (beq_iff_eq.mpr (hu.trans hc))
        simp [hpu, huk]
      · rw [ih]
        simp [hpu]

theorem dictGet_dictSet (m : Jobs) (k : String) (v : JobRecord) (u : String) :
    dictGet (dictSet m k v) u = if u = k then some v else dictGet m u := by
  unfold dictSet
  by_cases hs : (m.find? (fun p => p.1 == k)).isSome
  · rw [if_pos hs, dictGet_map_replace, if_pos hs]
  · rw [if_neg hs, dictGet_append_single]
    have hnone : dictGet m k = none := by
      unfold dictGet
      cases hf : m.find? (fun p => p.1 == k)
      · rfl
      · rw [hf] at hs
        simp at hs
    by_cases huk : u = k
    · subst huk
      simp [hnone]
    · have : ¬ (k == u) := by
        simp [beq_iff_eq]
        intro hc
        exact huk hc.symm
      simp [huk, this]

/-! ## Claim C9 -/

/-- Claim C9: when a prior last_sync exists, exactly two queries are issued —
one over the window from now to last_sync + num_days restricted to events
updated at or after last_sync, and one over the window from
last_sync + num_days to now + num_days with no updated restriction; when no
last_sync exists, exactly one unconditional query over the window from now
to now + num_days is issued. -/
theorem C9_fetch_windows (sync_start num_days : Int) :
    (∀ ls : Int, get_events_queries sync_start (some ls) num_days =
      [{ timeMin := sync_start, timeMax := ls + num_days,
         updatedMin := some ls, showDeleted := true },
       { timeMin := ls + num_days, timeMax := sync_start + num_days,
         updatedMin := none, showDeleted := false }]) ∧
    get_events_queries sync_start none num_days =
      [{ timeMin := sync_start, timeMax := sync_start + num_days,
         updatedMin := none, showDeleted := false }] := by
  exact ⟨fun ls => rfl, rfl⟩

/-! ## Claim C1 -/

/-- Claim C1 (code bug): the spec (and the function's own doctests) say a
description consisting solely of an end-offset or start-offset line fires at
the offset-derived time; the code never inspects the description's lines and
always schedules the single command at the event's start.  Here start has
wall-clock minute 100 and end minute 160, yet descriptions consisting solely
of an end-line, a minus-60 line and a plus-30 line each yield one entry at
exec_time 100 — not 160, 40 or 130 as the claim requires. -/
theorem C1_parse_command_ignores_offsets :
    parse_command "end: echo bye" ⟨"S", 100, 0⟩ ⟨"E", 160, 0⟩ "su" "lo" 0 =
      some { command := gcalcron_sh ++ " \"S\" \"E\" \"su\" \"lo\" \"end: echo bye\"",
             exec_time := 100 } ∧
    parse_command "-60: echo hi" ⟨"S", 100, 0⟩ ⟨"E", 160, 0⟩ "su" "lo" 0 =
      some { command := gcalcron_sh ++ " \"S\" \"E\" \"su\" \"lo\" \"-60: echo hi\"",
             exec_time := 100 } ∧
    parse_command "+30: echo hi" ⟨"S", 100, 0⟩ ⟨"E", 160, 0⟩ "su" "lo" 0 =
      some { command := gcalcron_sh ++ " \"S\" \"E\" \"su\" \"lo\" \"+30: echo hi\"",
             exec_time := 100 } ∧
    (100 : Int) ≠ 160 ∧ (100 : Int) ≠ 100 - 60 ∧ (100 : Int) ≠ 100 + 30 := by
  refine ⟨by decide, by decide, by decide, by decide, by decide, by decide⟩

/-! ## Claim C2 -/

/-- Claim C2 counterexample: a cycle whose fetch fails by credential
revocation (the caught `AccessTokenRefreshError`) does NOT abort: with one
stored job record and last_sync 100, a revoked fetch at now = 999999 leaves
a cycle that empties the jobs mapping (via cleanup) and advances last_sync
to 999999, so both the jobs mapping and last_sync differ from before. -/
theorem C2_revocation_mutates_state :
    sync_gcal_to_cron (FetchResult.revoked []) 999999 []
        { jobs := [("e1", { date := 0, ids := ["1"] })],
          calendarId := "c", last_sync := some 100 } =
      some { settings := { jobs := [], calendarId := "c", last_sync := some 999999 },
             ops := [] } ∧
    ([("e1", ({ date := 0, ids := ["1"] } : JobRecord))] : Jobs) ≠ [] ∧
    (some 100 : Option Int) ≠ some 999999 := by
  refine ⟨by decide, by decide, by decide⟩

/-- Claim C2 (amended): a fetch failure that raises an uncaught exception
aborts the cycle with no mutation of the job store or last_sync; but a
credential revocation is caught inside the fetch, which then returns the
entries gathered so far, and the cycle proceeds exactly as a successful
fetch of that (possibly empty) list would — in particular it completes and
sets last_sync to the cycle's start time. -/
theorem C2_amended_fetch_failure :
    (∀ (now : Int) (resps : List String) (s : Settings),
      sync_gcal_to_cron FetchResult.raised now resps s = none) ∧
    (∀ (events : List Event) (now : Int) (resps : List String) (s : Settings),
      sync_gcal_to_cron (FetchResult.revoked events) now resps s =
        sync_gcal_to_cron (FetchResult.ok events) now resps s ∧
      ∃ r : SyncResult,
        sync_gcal_to_cron (FetchResult.revoked events) now resps s = some r ∧
        r.settings.last_sync = some now) := by
  refine ⟨fun now resps s => rfl, fun events now resps s => ⟨rfl, ?_⟩⟩
  exact ⟨_, rfl, rfl⟩

/-! ## Claim C5 -/

/-- Claim C5 counterexample: an entry whose computed exec_time equals "now"
(so is not strictly after it) is nevertheless emitted by the parser: with
start wall-clock minute 100 and now = 100, `parse_command` returns an entry
with exec_time 100, and 100 is not strictly greater than 100. -/
theorem C5_boundary_entry_emitted :
    parse_command "echo hi" ⟨"S", 100, 0⟩ ⟨"E", 160, 0⟩ "su" "lo" 100 =
      some { command := gcalcron_sh ++ " \"S\" \"E\" \"su\" \"lo\" \"echo hi\"",
             exec_time := 100 } ∧
    ¬ ((100 : Int) < 100) := by
  refine ⟨by decide, by decide⟩

/-- Claim C5 (amended): the parser silently drops the command (returning no
entry and raising no error) exactly when the computed exec_time is strictly
BEFORE now; every entry it emits has exec_time at least now (an entry whose
exec_time equals now is emitted).  Separately, the scheduling stage skips an
entry whose exec_time is not strictly after its own "now" without invoking
the scheduler. -/
theorem C5_amended_pastdue_drop :
    (∀ (desc : String) (st en : GDateTime) (su lo : String) (now : Int),
      parse_command desc st en su lo now = none ↔ st.naive < now) ∧
    (∀ (desc : String) (st en : GDateTime) (su lo : String) (now : Int) (c : Command),
      parse_command desc st en su lo now = some c → now ≤ c.exec_time) ∧
    (∀ (now : Int) (a : Action) (rest : List Action) (resps : List String)
       (jobs : Jobs) (c : Command),
      a.command = some c → c.exec_time ≤ now →
      schedule_new_jobs now (a :: rest) resps jobs =
        schedule_new_jobs now rest resps jobs) := by
  refine ⟨?_, ?_, ?_⟩
  · intro desc st en su lo now
    unfold parse_command
    by_cases hle : now ≤ st.naive
    all_goals simp [hle]
    all_goals omega
  · intro desc st en su lo now c h
    have := parse_command_exec_time h
    unfold parse_command at h
    by_cases hle : now ≤ st.naive
    · rw [this]
      exact hle
    · rw [if_neg hle] at h
      cases h
  · intro now a rest resps jobs c hc hle
    simp [schedule_new_jobs, hc, hle]

/-- Claim C5 (amended) witness: a concrete action whose command time 50 is
not after now = 100 is skipped by the scheduling stage. -/
theorem C5_amended_pastdue_drop_witness :
    schedule_new_jobs 100
        [{ uid := "e", command := some { command := "x", exec_time := 50 } }] [] [] =
      schedule_new_jobs 100 [] [] [] :=
  C5_amended_pastdue_drop.2.2 100
    { uid := "e", command := some { command := "x", exec_time := 50 } } [] [] []
    { command := "x", exec_time := 50 } rfl (by decide)

/-! ## Claim C6 -/

/-- Claim C6 counterexample: a record dated yesterday is NOT retained.  With
now at minute 600 of day 2 and a record dated day 1 (midnight minute 1440),
`clean_settings` removes the record, because day 1 midnight ≤ now − 1 day. -/
theorem C6_yesterday_removed :
    clean_settings (2 * oneDay + 600) [("e1", { date := oneDay, ids := ["1"] })] = [] ∧
    ([] : Jobs) ≠ [("e1", { date := oneDay, ids := ["1"] })] := by
  refine ⟨by decide, by decide⟩

/-- Claim C6 (amended): expiry removes exactly the records whose stored date
(its midnight) is at least one day before now, i.e. keeps a record iff
now − 1 day < date.  Consequently a record dated two days before now is
removed, a record dated YESTERDAY is also removed (whatever the time of
day), and a record dated today is retained. -/
theorem C6_amended_expiry :
    (∀ (now : Int) (jobs : Jobs) (p : String × JobRecord),
      p ∈ clean_settings now jobs ↔ p ∈ jobs ∧ now - oneDay < p.2.date) ∧
    (∀ (mid tod : Int) (uid : String) (jr2 jr1 jr0 : JobRecord),
      0 ≤ tod → tod < oneDay →
      jr2.date = mid - 2 * oneDay → jr1.date = mid - oneDay → jr0.date = mid →
      clean_settings (mid + tod) [(uid, jr2)] = [] ∧
      clean_settings (mid + tod) [(uid, jr1)] = [] ∧
      clean_settings (mid + tod) [(uid, jr0)] = [(uid, jr0)]) := by
  constructor
  · intro now jobs p
    simp [clean_settings, List.mem_filter]
  · intro mid tod uid jr2 jr1 jr0 h0 h1 hd2 hd1 hd0
    unfold oneDay at *
    refine ⟨?_, ?_, ?_⟩
    · unfold clean_settings oneDay
      rw [List.filter_eq_nil_iff]
      intro a ha
      rw [List.mem_singleton] at ha
      subst ha
      simp only [decide_eq_true_eq, Decidable.not_not]
      omega
    · unfold clean_settings oneDay
      rw [List.filter_eq_nil_iff]
      intro a ha
      rw [List.mem_singleton] at ha
      subst ha
      simp only [decide_eq_true_eq, Decidable.not_not]
      omega
    · unfold clean_settings oneDay
      rw [List.filter_eq_self]
      intro a ha
      rw [List.mem_singleton] at ha
      subst ha
      simp only [decide_eq_true_eq]
      omega

/-- Claim C6 (amended) witness: at now = minute 600 of day 2, a record dated
day 0 and one dated day 1 (yesterday) are removed, one dated day 2 (today)
is retained. -/
theorem C6_amended_expiry_witness :
    clean_settings (2 * oneDay + 600) [("a", { date := 0, ids := [] })] = [] ∧
    clean_settings (2 * oneDay + 600) [("a", { date := oneDay, ids := [] })] = [] ∧
    clean_settings (2 * oneDay + 600) [("a", { date := 2 * oneDay, ids := [] })] =
      [("a", { date := 2 * oneDay, ids := [] })] :=
  C6_amended_expiry.2 (2 * oneDay) 600 "a"
    { date := 0, ids := [] } { date := oneDay, ids := [] } { date := 2 * oneDay, ids := [] }
    (by decide) (by decide) (by decide) (by decide) (by decide)

/-! ## Claim C3 -/

/-- Claim C3 counterexample: a confirmed event with a non-empty description
whose parse yields zero entries (its start, wall-clock minute 50, is before
now = 100) produces NO action at all — not the cancel-only action carrying
the event id that the claim requires. -/
theorem C3_pastdue_event_skipped :
    parse_events 100
        [{ id := "e1", status := "confirmed", updated := "u",
           start := ⟨"S", 50, 0⟩, endTime := ⟨"E", 60, 0⟩,
           summary := some "s", location := some "l",
           description := some "echo hi" }] = [] ∧
    ([] : List Action) ≠ [{ uid := "e1", command := none }] := by
  refine ⟨by decide, by decide⟩

/-- Claim C3 (amended): the reconciler emits, in original order (the batch
result is the concatenation of the per-event results): for a cancelled
event, a cancel-eligible action with no commands; for a non-cancelled event
with empty description, no action; for a non-cancelled event with non-empty
description whose parse yields no entry (past-due start), ALSO no action
(no cancel-only action is emitted, so its old jobs are not cancelled); and
for a non-cancelled event whose parse yields an entry, an action carrying
the event id and that entry. -/
theorem C3_amended_reconciler_cases :
    (∀ (now : Int) (e : Event) (rest : List Event),
      parse_events now (e :: rest) = parse_events now [e] ++ parse_events now rest) ∧
    (∀ (now : Int) (e : Event), e.status = "cancelled" →
      parse_events now [e] = [{ uid := e.id, command := none }]) ∧
    (∀ (now : Int) (e : Event), e.status ≠ "cancelled" →
      (e.description).getD "" = "" → parse_events now [e] = []) ∧
    (∀ (now : Int) (e : Event), e.status ≠ "cancelled" →
      (e.description).getD "" ≠ "" →
      parse_command ((e.description).getD "") e.start e.endTime
        ((e.summary).getD "") ((e.location).getD "") now = none →
      parse_events now [e] = []) ∧
    (∀ (now : Int) (e : Event) (c : Command), e.status ≠ "cancelled" →
      (e.description).getD "" ≠ "" →
      parse_command ((e.description).getD "") e.start e.endTime
        ((e.summary).getD "") ((e.location).getD "") now = some c →
      parse_events now [e] = [{ uid := e.id, command := some c }]) := by
  refine ⟨parse_events_cons, ?_, ?_, ?_, ?_⟩
  · intro now e h
    simp [parse_events, h]
  · intro now e h1 h2
    simp [parse_events, h1, h2]
  · intro now e h1 h2 h3
    simp [parse_events, h1, h2, h3]
  · intro now e c h1 h2 h3
    simp [parse_events, h1, h2, h3]

/-- Claim C3 (amended) witness: a concrete cancelled event yields exactly the
uid-only action. -/
theorem C3_amended_reconciler_cases_witness :
    parse_events 10
        [{ id := "e1", status := "cancelled", updated := "u",
           start := ⟨"S", 0, 0⟩, endTime := ⟨"E", 0, 0⟩,
           summary := none, location := none, description := some "d" }] =
      [{ uid := "e1", command := none }] :=
  C3_amended_reconciler_cases.2.1 10
    { id := "e1", status := "cancelled", updated := "u",
      start := ⟨"S", 0, 0⟩, endTime := ⟨"E", 0, 0⟩,
      summary := none, location := none, description := some "d" } rfl

/-! ## Claim C8 -/

/-- Claim C8: every emitted command entry's command text is the fixed
wrapper-script invocation whose positional arguments are the event's start,
end, summary, location and description values, each enclosed in double
quotes, in that order. -/
theorem C8_command_payload :
    ∀ (desc : String) (st en : GDateTime) (su lo : String) (now : Int) (c : Command),
      parse_command desc st en su lo now = some c →
      c.command = gcalcron_sh ++ " \"" ++ st.raw ++ "\" \"" ++ en.raw ++ "\" \"" ++
        su ++ "\" \"" ++ lo ++ "\" \"" ++ desc ++ "\"" := by
  intro desc st en su lo now c h
  unfold parse_command at h
  by_cases hle : now ≤ st.naive
  · rw [if_pos hle] at h
    cases h
    rw [intercalate_five]
    simp only [string_append_assoc]
  · rw [if_neg hle] at h
    cases h

/-- Claim C8 witness: a concrete parse yields the quoted five-argument
wrapper invocation. -/
theorem C8_command_payload_witness :
    parse_command "d" ⟨"S", 100, 0⟩ ⟨"E", 160, 0⟩ "su" "lo" 0 =
      some { command := gcalcron_sh ++ " \"S\" \"E\" \"su\" \"lo\" \"d\"",
             exec_time := 100 } ∧
    ({ command := gcalcron_sh ++ " \"S\" \"E\" \"su\" \"lo\" \"d\"",
       exec_time := 100 } : Command).command =
      gcalcron_sh ++ " \"" ++ "S" ++ "\" \"" ++ "E" ++ "\" \"" ++ "su" ++ "\" \"" ++
        "lo" ++ "\" \"" ++ "d" ++ "\"" :=
  ⟨by decide,
   C8_command_payload "d" ⟨"S", 100, 0⟩ ⟨"E", 160, 0⟩ "su" "lo" 0 _ (by decide)⟩

/-! ## Claim C10 -/

/-- Claim C10: the parser emits at most one command entry per event, and when
one is emitted its exec_time equals the event's parsed start time with the
timezone information stripped (`instant + offset`); a multi-line description
never yields more than one scheduled command.  The batch output is the
concatenation of the per-event outputs. -/
theorem C10_single_entry_at_start :
    (∀ (now : Int) (e : Event), (parse_events now [e]).length ≤ 1) ∧
    (∀ (now : Int) (e : Event) (a : Action), a ∈ parse_events now [e] →
      a.uid = e.id ∧ ∀ c : Command, a.command = some c → c.exec_time = e.start.naive) ∧
    (∀ (now : Int) (es : List Event),
      parse_events now es = (es.map (fun e => parse_events now [e])).flatten) := by
  refine ⟨?_, ?_, ?_⟩
  · intro now e
    by_cases h1 : e.status = "cancelled"
    · simp [parse_events, h1]
    · by_cases h2 : (e.description).getD "" = ""
      · simp [parse_events, h1, h2]
      · cases hp : parse_command ((e.description).getD "") e.start e.endTime
            ((e.summary).getD "") ((e.location).getD "") now with
        | none => simp [parse_events, h1, h2, hp]
        | some c => simp [parse_events, h1, h2, hp]
  · intro now e a ha
    by_cases h1 : e.status = "cancelled"
    · simp [parse_events, h1] at ha
      subst ha
      refine ⟨rfl, ?_⟩
      intro c hc
      cases hc
    · by_cases h2 : (e.description).getD "" = ""
      · simp [parse_events, h1, h2] at ha
      · cases hp : parse_command ((e.description).getD "") e.start e.endTime
            ((e.summary).getD "") ((e.location).getD "") now with
        | none => simp [parse_events, h1, h2, hp] at ha
        | some c0 =>
          simp [parse_events, h1, h2, hp] at ha
          subst ha
          refine ⟨rfl, ?_⟩
          intro c hc
          cases hc
          exact parse_command_exec_time hp
  · intro now es
    induction es with
    | nil => rfl
    | cons e rest ih =>
      rw [parse_events_cons, ih]
      simp

/-- Claim C10 witness: a concrete confirmed event (start instant 40, offset
60, so wall-clock 100) yields an action whose uid is the event id and whose
single command fires at minute 100. -/
theorem C10_single_entry_at_start_witness :
    ({ uid := "e1",
       command := some { command := gcalcron_sh ++ " \"S\" \"E\" \"su\" \"lo\" \"d\"",
                         exec_time := 100 } } : Action).uid = "e1" ∧
    ({ command := gcalcron_sh ++ " \"S\" \"E\" \"su\" \"lo\" \"d\"",
       exec_time := 100 } : Command).exec_time = GDateTime.naive ⟨"S", 40, 60⟩ := by
  have h := C10_single_entry_at_start.2.1 0
    { id := "e1", status := "confirmed", updated := "u", start := ⟨"S", 40, 60⟩,
      endTime := ⟨"E", 160, 0⟩, summary := some "su", location := some "lo",
      description := some "d" }
    { uid := "e1",
      command := some { command := gcalcron_sh ++ " \"S\" \"E\" \"su\" \"lo\" \"d\"",
                        exec_time := 100 } }
    (by decide)
  exact ⟨h.1, h.2 _ rfl⟩

/-! ## Claim C4 -/

theorem schedule_new_jobs_ops_schedule (now : Int) :
    ∀ (actions : List Action) (resps : List String) (jobs : Jobs),
      ∀ op ∈ (schedule_new_jobs now actions resps jobs).2, op.isSchedule = true := by
  intro actions
  induction actions with
  | nil =>
    intro resps jobs op hop
    simp [schedule_new_jobs] at hop
  | cons a rest ih =>
    intro resps jobs op hop
    cases hc : a.command with
    | none =>
      rw [show schedule_new_jobs now (a :: rest) resps jobs =
            schedule_new_jobs now rest resps jobs from by
          simp [schedule_new_jobs, hc]] at hop
      exact ih resps jobs op hop
    | some c =>
      by_cases hle : c.exec_time ≤ now
      · rw [show schedule_new_jobs now (a :: rest) resps jobs =
              schedule_new_jobs now rest resps jobs from by
            simp [schedule_new_jobs, hc, hle]] at hop
        exact ih resps jobs op hop
      · simp only [schedule_new_jobs, hc, if_neg hle] at hop
        rcases List.mem_cons.mp hop with h | h
        · subst h
          rfl
        · exact ih resps.tail _ op h

/-- Claim C4: within one synchronisation cycle, every cancellation — the
store removals together with the single batched OS cancel request for the
union of the removed job ids, which is skipped when that union is empty —
is applied before any schedule request: the cycle's operation trace splits
into a cancel-only prefix (at most one batched cancel, present iff the
union of removed ids is non-empty, and carrying exactly that union)
followed by schedule-only operations. -/
theorem C4_cancellations_before_scheduling :
    ∀ (events : List Event) (now : Int) (resps : List String) (s : Settings)
      (r : SyncResult),
      sync_gcal_to_cron (FetchResult.ok events) now resps s = some r →
      ∃ cancels scheds : List OsOp,
        r.ops = cancels ++ scheds ∧
        (∀ op ∈ cancels, op.isCancel = true) ∧
        (∀ op ∈ scheds, op.isSchedule = true) ∧
        cancels.length ≤ 1 ∧
        (cancels = [] ↔ (unschedule_old_jobs s.jobs (parse_events now events)).2 = []) ∧
        (∀ ids, OsOp.cancel ids ∈ cancels →
          ids = (unschedule_old_jobs s.jobs (parse_events now events)).2) := by
  intro events now resps s r h
  unfold sync_gcal_to_cron at h
  cases h
  refine ⟨(if (unschedule_old_jobs s.jobs (parse_events now events)).2.isEmpty then []
            else [OsOp.cancel (unschedule_old_jobs s.jobs (parse_events now events)).2]),
          (schedule_new_jobs now (parse_events now events) resps
            (unschedule_old_jobs s.jobs (parse_events now events)).1).2,
          rfl, ?_, ?_, ?_, ?_, ?_⟩
  · intro op hop
    by_cases he : (unschedule_old_jobs s.jobs (parse_events now events)).2.isEmpty
    · rw [if_pos he] at hop
      cases hop
    · rw [if_neg he] at hop
      rw [List.mem_singleton] at hop
      subst hop
      rfl
  · exact schedule_new_jobs_ops_schedule now _ resps _
  · by_cases he : (unschedule_old_jobs s.jobs (parse_events now events)).2.isEmpty
    · rw [if_pos he]
      simp
    · rw [if_neg he]
      simp
  · by_cases he : (unschedule_old_jobs s.jobs (parse_events now events)).2.isEmpty
    · rw [if_pos he]
      simp only [List.isEmpty_iff] at he
      simp [he]
    · rw [if_neg he]
      simp only [List.isEmpty_iff] at he
      simp [he]
  · intro ids hid
    by_cases he : (unschedule_old_jobs s.jobs (parse_events now events)).2.isEmpty
    · rw [if_pos he] at hid
      cases hid
    · rw [if_neg he] at hid
      rw [List.mem_singleton] at hid
      cases hid
      rfl

/-- Claim C4 witness: a concrete cycle — one cancelled event with a stored
job id "7" and one new confirmed event scheduled with confirmation
"job 5 at Mon" — whose trace is the batched cancel of ["7"] followed by the
one schedule call. -/
theorem C4_cancellations_before_scheduling_witness :
    ∃ cancels scheds : List OsOp,
      ({ settings := { jobs := [("e2", { date := 0, ids := ["5"] })],
                       calendarId := "c", last_sync := some 0 },
         ops := [OsOp.cancel ["7"],
                 OsOp.schedule 100
                   (gcalcron_sh ++ " \"S2\" \"E2\" \"su\" \"lo\" \"d\"")] } : SyncResult).ops =
        cancels ++ scheds ∧
      (∀ op ∈ cancels, op.isCancel = true) ∧
      (∀ op ∈ scheds, op.isSchedule = true) ∧
      cancels.length ≤ 1 ∧
      (cancels = [] ↔
        (unschedule_old_jobs
          [("e1", { date := 0, ids := ["7"] })]
          (parse_events 0
            [{ id := "e1", status := "cancelled", updated := "u1",
               start := ⟨"S1", 0, 0⟩, endTime := ⟨"E1", 0, 0⟩,
               summary := none, location := none, description := some "x" },
             { id := "e2", status := "confirmed", updated := "u2",
               start := ⟨"S2", 100, 0⟩, endTime := ⟨"E2", 160, 0⟩,
               summary := some "su", location := some "lo",
               description := some "d" }])).2 = []) ∧
      (∀ ids, OsOp.cancel ids ∈ cancels →
        ids = (unschedule_old_jobs
          [("e1", { date := 0, ids := ["7"] })]
          (parse_events 0
            [{ id := "e1", status := "cancelled", updated := "u1",
               start := ⟨"S1", 0, 0⟩, endTime := ⟨"E1", 0, 0⟩,
               summary := none, location := none, description := some "x" },
             { id := "e2", status := "confirmed", updated := "u2",
               start := ⟨"S2", 100, 0⟩, endTime := ⟨"E2", 160, 0⟩,
               summary := some "su", location := some "lo",
               description := some "d" }])).2) :=
  C4_cancellations_before_scheduling
    [{ id := "e1", status := "cancelled", updated := "u1",
       start := ⟨"S1", 0, 0⟩, endTime := ⟨"E1", 0, 0⟩,
       summary := none, location := none, description := some "x" },
     { id := "e2", status := "confirmed", updated := "u2",
       start := ⟨"S2", 100, 0⟩, endTime := ⟨"E2", 160, 0⟩,
       summary := some "su", location := some "lo", description := some "d" }]
    0 ["job 5 at Mon"]
    { jobs := [("e1", { date := 0, ids := ["7"] })], calendarId := "c",
      last_sync := none }
    { settings := { jobs := [("e2", { date := 0, ids := ["5"] })],
                    calendarId := "c", last_sync := some 0 },
      ops := [OsOp.cancel ["7"],
              OsOp.schedule 100
                (gcalcron_sh ++ " \"S2\" \"E2\" \"su\" \"lo\" \"d\"")] }
    (by decide)

/-! ## Claim C7 -/

/-- Claim C7: a schedule invocation whose confirmation text has no match for
the pattern `job <digits> at` records nothing for that entry (its store
update is skipped) while the remaining actions still attempt scheduling;
consequently every job id in the jobs mapping after a scheduling pass either
was already there or was extracted from a matched confirmation among the
consumed responses. -/
theorem C7_job_ids_from_confirmations :
    (∀ (now : Int) (actions : List Action) (resps : List String) (jobs : Jobs)
       (uid : String) (jr : JobRecord),
      dictGet (schedule_new_jobs now actions resps jobs).1 uid = some jr →
      ∀ jid ∈ jr.ids,
        (∃ jr0, dictGet jobs uid = some jr0 ∧ jid ∈ jr0.ids) ∨
        ∃ resp ∈ resps, searchJobId resp.toList = some jid) ∧
    (∀ (now : Int) (a : Action) (rest : List Action) (resp : String)
       (resps : List String) (jobs : Jobs) (c : Command),
      a.command = some c → now < c.exec_time → searchJobId resp.toList = none →
      schedule_new_jobs now (a :: rest) (resp :: resps) jobs =
        ((schedule_new_jobs now rest resps jobs).1,
         OsOp.schedule c.exec_time c.command ::
           (schedule_new_jobs now rest resps jobs).2)) := by
  constructor
  · intro now actions
    induction actions with
    | nil =>
      intro resps jobs uid jr h jid hjid
      left
      refine ⟨jr, ?_, hjid⟩
      simpa [schedule_new_jobs] using h
    | cons a rest ih =>
      intro resps jobs uid jr h jid hjid
      cases hc : a.command with
      | none =>
        exact ih resps jobs uid jr (by simpa [schedule_new_jobs, hc] using h) jid hjid
      | some c =>
        by_cases hle : c.exec_time ≤ now
        · exact ih resps jobs uid jr
            (by simpa [schedule_new_jobs, hc, hle] using h) jid hjid
        · cases resps with
          | nil =>
            have hnone : searchJobId (("" : String).toList) = none := rfl
            have h' : dictGet (schedule_new_jobs now rest [] jobs).1 uid = some jr := by
              simpa [schedule_new_jobs, hc, hle, hnone] using h
            rcases ih [] jobs uid jr h' jid hjid with hl | ⟨resp, hmem, _⟩
            · exact Or.inl hl
            · cases hmem
          | cons rsp rs =>
            cases hjobs : searchJobId rsp.toList with
            | none =>
              have hjobs' : searchJobId rsp.data = none := hjobs
              have h' : dictGet (schedule_new_jobs now rest rs jobs).1 uid = some jr := by
                simpa [schedule_new_jobs, hc, hle, hjobs'] using h
              rcases ih rs jobs uid jr h' jid hjid with hl | ⟨resp, hmem, hj⟩
              · exact Or.inl hl
              · exact Or.inr ⟨resp, List.mem_cons_of_mem _ hmem, hj⟩
            | some njid =>
              cases hget : dictGet jobs a.uid with
              | some jr0 =>
                have hjobs' : searchJobId rsp.data = some njid := hjobs
                have h' : dictGet (schedule_new_jobs now rest rs
                    (dictSet jobs a.uid
                      { date := jr0.date, ids := jr0.ids ++ [njid] })).1 uid = some jr := by
                  simpa [schedule_new_jobs, hc, hle, hjobs', hget] using h
                rcases ih rs _ uid jr h' jid hjid with ⟨jr1, hjr1, hjid1⟩ | ⟨resp, hmem, hj⟩
                · rw [dictGet_dictSet] at hjr1
                  by_cases huid : uid = a.uid
                  · rw [if_pos huid] at hjr1
                    cases hjr1
                    rcases List.mem_append.mp hjid1 with hin | hin
                    · left
                      refine ⟨jr0, ?_, hin⟩
                      rw [huid]
                      exact hget
                    · right
                      refine ⟨rsp, List.mem_cons_self _ _, ?_⟩
                      rw [List.mem_singleton] at hin
                      subst hin
                      exact hjobs
                  · rw [if_neg huid] at hjr1
                    exact Or.inl ⟨jr1, hjr1, hjid1⟩
                · exact Or.inr ⟨resp, List.mem_cons_of_mem _ hmem, hj⟩
              | none =>
                have hjobs' : searchJobId rsp.data = some njid := hjobs
                have h' : dictGet (schedule_new_jobs now rest rs
                    (dictSet jobs a.uid
                      { date := dateOfExecTime c.exec_time, ids := [njid] })).1 uid =
                    some jr := by
                  simpa [schedule_new_jobs, hc, hle, hjobs', hget] using h
                rcases ih rs _ uid jr h' jid hjid with ⟨jr1, hjr1, hjid1⟩ | ⟨resp, hmem, hj⟩
                · rw [dictGet_dictSet] at hjr1
                  by_cases huid : uid = a.uid
                  · rw [if_pos huid] at hjr1
                    cases hjr1
                    rw [List.mem_singleton] at hjid1
                    subst hjid1
                    right
                    exact ⟨rsp, List.mem_cons_self _ _, hjobs⟩
                  · rw [if_neg huid] at hjr1
                    exact Or.inl ⟨jr1, hjr1, hjid1⟩
                · exact Or.inr ⟨resp, List.mem_cons_of_mem _ hmem, hj⟩
  · intro now a rest resp resps jobs c hc hlt hmatch
    have hle : ¬ (c.exec_time ≤ now) := by omega
    have hmatch' : searchJobId resp.data = none := hmatch
    simp [schedule_new_jobs, hc, hle, hmatch']

/-- Claim C7 witness: scheduling one entry against an empty store with the
confirmation text "xjob 42 at y" records only the extracted id "42", which
indeed originates from a matched confirmation among the responses. -/
theorem C7_job_ids_from_confirmations_witness :
    (∃ jr0, dictGet ([] : Jobs) "e1" = some jr0 ∧ "42" ∈ jr0.ids) ∨
    ∃ resp ∈ ["xjob 42 at y"], searchJobId resp.toList = some "42" :=
  C7_job_ids_from_confirmations.1 0
    [{ uid := "e1", command := some { command := "cmd", exec_time := 100 } }]
    ["xjob 42 at y"] [] "e1" { date := 0, ids := ["42"] } (by decide) "42" (by decide)

end Gcalcron
